import Mathlib

/-!
# Registration transaction of Pixel_Phantoms

Shallow embedding of `register` from
`src/backend/src/controllers/registrationController.js`.

The three Sequelize tables are lists of rows in insertion order.  A transaction
is a working copy of the store: every storage call of the handler acts on the
working copy, `transaction.commit()` publishes it and `transaction.rollback()`
discards it.  Storage failures are an input (`Env.failing`): the named storage
call throws if the handler reaches it; `transaction.rollback()` itself is taken
not to throw.  Requests are executed one at a time.
-/

namespace PixelPhantoms

/-! ## Data model -/

/-- Row of the `User` table: the attributes passed to `User.findOrCreate`. -/
structure User where
  id : Nat
  firstName : String
  lastName : String
  email : String
  age : Int
deriving DecidableEq, Repr

/-- Row of the `Event` table: the attributes passed to `Event.create`, plus
`registeredCount`, which the handler reads and increments. -/
structure Event where
  id : Nat
  title : String
  date : Nat
  location : String
  capacity : Int
  registeredCount : Int
deriving DecidableEq, Repr

/-- Row of the `Registration` table (`Registration.create({ UserId, EventId })`). -/
structure Registration where
  id : Nat
  UserId : Nat
  EventId : Nat
deriving DecidableEq, Repr

/-- The committed contents of the three tables. -/
structure Store where
  users : List User
  events : List Event
  registrations : List Registration
deriving DecidableEq, Repr

/-- Fields destructured from `req.body` (line 14). -/
structure Body where
  firstName : String
  lastName : String
  email : String
  age : Int
  eventTitle : String
deriving DecidableEq, Repr

/-- A request: its body and what `validationResult(req).array()` holds. -/
structure Request where
  body : Body
  validationErrors : List String
deriving DecidableEq, Repr

/-- The storage calls of the handler, in program order. -/
inductive StorageOp where
  | transaction
  | userFindOrCreate
  | eventFindOne
  | eventCreate
  | registrationFindOne
  | registrationCreate
  | eventIncrement
  | commit
deriving DecidableEq, Repr

/-- What the handler does not control: the clock read by `new Date()`, which
storage call (if any) throws, and whether the promise returned by
`sendRegistrationEmail` rejects. -/
structure Env where
  now : Nat
  failing : Option StorageOp
  emailRejects : Bool
deriving DecidableEq, Repr

/-- JSON body handed to `res.json`. -/
structure Json where
  status : String
  message : Option String
  errors : List String
  registrationId : Option Nat
deriving DecidableEq, Repr

/-- How the handler ends: `res.status(code).json(body)`, `next(error)`, or a
rejected promise with no reply (a throw outside the `try`). -/
inductive Reply where
  | json (code : Nat) (body : Json)
  | next (error : StorageOp)
  | rejected (error : StorageOp)
deriving DecidableEq, Repr

/-- Result of one call of the handler: the committed store afterwards, the
reply, the arguments of the call of `sendRegistrationEmail` (if it is reached)
and the lines written by `console.error`. -/
structure Outcome where
  store : Store
  reply : Reply
  emailed : Option (User × Event)
  console : List String
deriving DecidableEq, Repr

/-! ## Storage layer -/

/-- Modelled from the spec: the unique identifier the storage layer gives a new
row (the model files are not among the sources). It is one more than the largest
identifier of the table, hence different from every identifier in it. -/
def nextId (ids : List Nat) : Nat := ids.foldr max 0 + 1

/-- Modelled from the spec: default of the `registeredCount` column. The model
file `models/Event.js` is not among the sources; the spec gives the count as a
non-negative integer that starts at 0 for an event without registrations. -/
def defaultRegisteredCount : Int := 0

/-- `User.findOne({ where: { email } })`. -/
def findUser (w : Store) (email : String) : Option User :=
  w.users.find? (fun u => decide (u.email = email))

/-- `User.findOrCreate({ where: { email }, defaults: { firstName, lastName, age } })`. -/
def findOrCreateUser (w : Store) (b : Body) : Store × User :=
  match findUser w b.email with
  | some u => (w, u)
  | none =>
    let u : User :=
      { id := nextId (w.users.map (·.id)), firstName := b.firstName,
        lastName := b.lastName, email := b.email, age := b.age }
    ({ w with users := w.users ++ [u] }, u)

/-- `Event.findOne({ where: { title } })`. -/
def findEvent (w : Store) (title : String) : Option Event :=
  w.events.find? (fun e => decide (e.title = title))

/-- `Event.create({ title, date: new Date(), location: 'To be announced', capacity: 100 })`. -/
def createEvent (w : Store) (title : String) (now : Nat) : Store × Event :=
  let e : Event :=
    { id := nextId (w.events.map (·.id)), title := title, date := now,
      location := "To be announced", capacity := 100,
      registeredCount := defaultRegisteredCount }
  ({ w with events := w.events ++ [e] }, e)

/-- `Registration.findOne({ where: { UserId, EventId } })`. -/
def findRegistration (w : Store) (userId eventId : Nat) : Option Registration :=
  w.registrations.find? (fun r => decide (r.UserId = userId ∧ r.EventId = eventId))

/-- `Registration.create({ UserId, EventId })`. -/
def createRegistration (w : Store) (userId eventId : Nat) : Store × Registration :=
  let r : Registration :=
    { id := nextId (w.registrations.map (·.id)), UserId := userId, EventId := eventId }
  ({ w with registrations := w.registrations ++ [r] }, r)

/-- The row update of `event.increment('registeredCount', { by: 1 })`. -/
def bump (eventId : Nat) (e : Event) : Event :=
  if e.id = eventId then { e with registeredCount := e.registeredCount + 1 } else e

/-- `event.increment('registeredCount', { by: 1 })`: an update of the rows whose
primary key is `event.id`. -/
def increment (w : Store) (eventId : Nat) : Store :=
  { w with events := w.events.map (bump eventId) }

/-! ## Replies -/

def validationReply (errors : List String) : Reply :=
  .json 400 { status := "error", message := none, errors := errors, registrationId := none }

def alreadyRegisteredReply : Reply :=
  .json 400 { status := "error", message := some "You are already registered for this event.",
              errors := [], registrationId := none }

def atCapacityReply : Reply :=
  .json 400 { status := "error", message := some "Event is at full capacity.",
              errors := [], registrationId := none }

def successReply (title : String) (registrationId : Nat) : Reply :=
  .json 201 { status := "success", message := some ("Successfully registered for " ++ title),
              errors := [], registrationId := some registrationId }

/-! ## The handler -/

/-- An exit that publishes nothing: the working copy is dropped and the
committed store stays `s`. -/
def rolledBack (s : Store) (r : Reply) : Outcome :=
  { store := s, reply := r, emailed := none, console := [] }

/-- The `.catch` handler on the promise of `sendRegistrationEmail`. -/
def emailConsole (env : Env) : List String :=
  if env.emailRejects then ["Email failed:"] else []

/-- Steps 3 to 7 of `register` (lines 41-82): `s` is the committed store, `w`
the working copy of the transaction after the user and the event are resolved. -/
def reserve (s w : Store) (user : User) (event : Event) (env : Env) : Outcome :=
  if env.failing = some .registrationFindOne then rolledBack s (.next .registrationFindOne)
  else
    match findRegistration w user.id event.id with
    | some _ => rolledBack s alreadyRegisteredReply
    | none =>
      if event.registeredCount ≥ event.capacity then rolledBack s atCapacityReply
      else if env.failing = some .registrationCreate then
        rolledBack s (.next .registrationCreate)
      else
        let created := createRegistration w user.id event.id
        if env.failing = some .eventIncrement then rolledBack s (.next .eventIncrement)
        else
          let w2 := increment created.1 event.id
          if env.failing = some .commit then rolledBack s (.next .commit)
          else
            { store := w2
              reply := successReply event.title created.2.id
              emailed := some (user, event)
              console := emailConsole env }

/-- Step 2 of `register` (lines 25-39): the event found by title, or the
placeholder created for it; an error naming the storage call when the call
that is reached throws. -/
def resolveEvent (w : Store) (title : String) (env : Env) : Except StorageOp (Store × Event) :=
  if env.failing = some .eventFindOne then .error .eventFindOne
  else
    match findEvent w title with
    | some e => .ok (w, e)
    | none =>
      if env.failing = some .eventCreate then .error .eventCreate
      else .ok (createEvent w title env.now)

/-- The handler `register` (lines 8-88). -/
def register (s : Store) (req : Request) (env : Env) : Outcome :=
  if req.validationErrors ≠ [] then
    { store := s, reply := validationReply req.validationErrors, emailed := none, console := [] }
  else if env.failing = some .transaction then
    { store := s, reply := .rejected .transaction, emailed := none, console := [] }
  else if env.failing = some .userFindOrCreate then rolledBack s (.next .userFindOrCreate)
  else
    let resolved := findOrCreateUser s req.body
    match resolveEvent resolved.1 req.body.eventTitle env with
    | .error op => rolledBack s (.next op)
    | .ok (w, event) => reserve s w resolved.2 event env

/-- Requests executed one after another, each on the store the previous one
committed. -/
def runAll (s : Store) : List (Request × Env) → Store
  | [] => s
  | (req, env) :: rest => runAll (register s req env).store rest

/-- Working copy and rows the checks of `register` run on when no storage call
throws: the result of steps 1 and 2. -/
def resolve (s : Store) (b : Body) (now : Nat) : Store × User × Event :=
  let resolved := findOrCreateUser s b
  match findEvent resolved.1 b.eventTitle with
  | some e => (resolved.1, resolved.2, e)
  | none =>
    let created := createEvent resolved.1 b.eventTitle now
    (created.1, resolved.2, created.2)

/-- Number of `Registration` rows for an event. -/
def registrationsFor (s : Store) (eventId : Nat) : Nat :=
  s.registrations.countP (fun r => decide (r.EventId = eventId))

/-- Number of `Registration` rows for a (user, event) pair. -/
def registrationsOf (s : Store) (userId eventId : Nat) : Nat :=
  s.registrations.countP (fun r => decide (r.UserId = userId ∧ r.EventId = eventId))

/-! ## Sample data -/

def launch : Event :=
  { id := 1, title := "Launch", date := 0, location := "Hall", capacity := 1,
    registeredCount := 0 }

def store0 : Store := { users := [], events := [launch], registrations := [] }

def bodyA : Body :=
  { firstName := "Ada", lastName := "A", email := "a@x.io", age := 30, eventTitle := "Launch" }

def bodyB : Body :=
  { firstName := "Bob", lastName := "B", email := "b@x.io", age := 41, eventTitle := "Launch" }

def calm : Env := { now := 7, failing := none, emailRejects := false }

def ada : User := { id := 1, firstName := "Ada", lastName := "A", email := "a@x.io", age := 30 }

/-- The sample store once Ada holds the only seat of "Launch". -/
def store1 : Store :=
  { users := [ada], events := [{ launch with registeredCount := 1 }],
    registrations := [{ id := 1, UserId := 1, EventId := 1 }] }

/-- Whether a reply is the 201 reply of a committed registration. -/
def Reply.isSuccess : Reply → Bool
  | .json code _ => code == 201
  | _ => false

/-- Outcome of the commit path for a resolved working copy, user and event. -/
def committed (r : Store × User × Event) (env : Env) : Outcome :=
  { store := increment (createRegistration r.1 r.2.1.id r.2.2.id).1 r.2.2.id
    reply := successReply r.2.2.title (createRegistration r.1 r.2.1.id r.2.2.id).2.id
    emailed := some (r.2.1, r.2.2)
    console := emailConsole env }

/-- The duplicate check of step 3 on the resolved working copy: a registration
row exists for the resolved user and event. -/
def duplicate (s : Store) (b : Body) (now : Nat) : Bool :=
  (findRegistration (resolve s b now).1 (resolve s b now).2.1.id
    (resolve s b now).2.2.id).isSome

/-- The capacity check of step 4 on the resolved event:
`event.registeredCount >= event.capacity`. -/
def full (s : Store) (b : Body) (now : Nat) : Bool :=
  decide ((resolve s b now).2.2.registeredCount ≥ (resolve s b now).2.2.capacity)

/-! ## Store predicates -/

/-- Primary key of `User`: no two rows share an id. -/
def UserIdsUnique (s : Store) : Prop := (s.users.map (·.id)).Nodup

/-- Primary key of `Event`: no two rows share an id. -/
def EventIdsUnique (s : Store) : Prop := (s.events.map (·.id)).Nodup

/-- Foreign key of `Registration.EventId`: every row references an event row. -/
def RefsResolve (s : Store) : Prop :=
  ∀ r ∈ s.registrations, ∃ e ∈ s.events, e.id = r.EventId

/-- The capacity invariant of the data model. -/
def CapacityOk (s : Store) : Prop :=
  ∀ e ∈ s.events, 0 ≤ e.registeredCount ∧ e.registeredCount ≤ e.capacity

/-- Every event counter equals the number of registration rows of the event. -/
def Ledger (s : Store) : Prop :=
  ∀ e ∈ s.events, e.registeredCount = (registrationsFor s e.id : Int)

/-- The email `m` finds a user with id `uid`, the title `t` finds an event with
id `eid`, and the pair has exactly one registration row. -/
def Held (s : Store) (m t : String) (uid eid : Nat) : Prop :=
  (∃ u, findUser s m = some u ∧ u.id = uid) ∧
    (∃ e, findEvent s t = some e ∧ e.id = eid) ∧ registrationsOf s uid eid = 1

/-- The email `m` finds a user who has a registration row for the event `eid`. -/
def Seat (s : Store) (eid : Nat) (m : String) : Prop :=
  ∃ u r, findUser s m = some u ∧ r ∈ s.registrations ∧ r.UserId = u.id ∧ r.EventId = eid

/-- State of the admissions to the event of title `t`, id `eid` and capacity `C`
once the emails of `P` have asked for a seat, one request after another. -/
structure Admission (s : Store) (t : String) (eid C : Nat) (P : List String) : Prop where
  event : ∃ e, findEvent s t = some e ∧ e.id = eid ∧ e.capacity = (C : Int) ∧
    e.registeredCount = (registrationsFor s eid : Int)
  users : UserIdsUnique s
  holders : ∀ r ∈ s.registrations, r.EventId = eid →
    ∃ u ∈ s.users, u.id = r.UserId ∧ u.email ∈ P
  seats : registrationsFor s eid < C → ∀ m ∈ P, Seat s eid m
  count : registrationsFor s eid = min C P.toFinset.card

instance (s : Store) : Decidable (UserIdsUnique s) := by unfold UserIdsUnique; infer_instance
instance (s : Store) : Decidable (EventIdsUnique s) := by unfold EventIdsUnique; infer_instance
instance (s : Store) : Decidable (RefsResolve s) := by unfold RefsResolve; infer_instance
instance (s : Store) : Decidable (CapacityOk s) := by unfold CapacityOk; infer_instance
instance (s : Store) : Decidable (Ledger s) := by unfold Ledger; infer_instance

/-! ## Basic facts about the storage layer -/

theorem lt_nextId (ids : List Nat) : ∀ x ∈ ids, x < nextId ids := by
  induction ids with
  | nil => intro x hx; cases hx
  | cons a l ih =>
    intro x hx
    simp only [nextId, List.foldr_cons] at ih ⊢
    rcases List.mem_cons.1 hx with rfl | h
    · omega
    · have := ih x h; omega

theorem isSuccess_rolledBack_next (s : Store) (op : StorageOp) :
    (rolledBack s (.next op)).reply.isSuccess = false := rfl

theorem reserve_cases (s w : Store) (u : User) (e : Event) (env : Env) :
    ((reserve s w u e env).reply.isSuccess = false ∧ (reserve s w u e env).store = s ∧
        (reserve s w u e env).emailed = none ∧
        ((reserve s w u e env).reply = atCapacityReply →
          findRegistration w u.id e.id = none ∧ e.registeredCount ≥ e.capacity)) ∨
      (findRegistration w u.id e.id = none ∧ e.registeredCount < e.capacity ∧
        reserve s w u e env = committed (w, u, e) env) := by
  unfold reserve
  by_cases h1 : env.failing = some .registrationFindOne
  · left; simp [h1, rolledBack, Reply.isSuccess, atCapacityReply]
  · cases hf : findRegistration w u.id e.id with
    | some r => left; simp [h1, rolledBack, Reply.isSuccess, atCapacityReply, alreadyRegisteredReply]
    | none =>
      by_cases h2 : e.registeredCount ≥ e.capacity
      · left; simp [h1, h2, rolledBack, Reply.isSuccess, atCapacityReply]
      · by_cases h3 : env.failing = some .registrationCreate
        · left; simp [h2, h3, rolledBack, Reply.isSuccess, atCapacityReply]
        · by_cases h4 : env.failing = some .eventIncrement
          · left; simp [h2, h4, rolledBack, Reply.isSuccess, atCapacityReply]
          · by_cases h5 : env.failing = some .commit
            · left; simp [h2, h5, rolledBack, Reply.isSuccess, atCapacityReply]
            · right
              refine ⟨rfl, lt_of_not_ge h2, ?_⟩
              simp [h1, h2, h3, h4, h5, committed]

theorem reserve_calm (s w : Store) (u : User) (e : Event) (env : Env)
    (hcalm : env.failing = none) :
    reserve s w u e env =
      match findRegistration w u.id e.id with
      | some _ => rolledBack s alreadyRegisteredReply
      | none =>
        if e.registeredCount ≥ e.capacity then rolledBack s atCapacityReply
        else committed (w, u, e) env := by
  unfold reserve
  simp only [hcalm, reduceCtorEq, if_false]
  cases findRegistration w u.id e.id with
  | some r => rfl
  | none =>
    by_cases h2 : e.registeredCount ≥ e.capacity
    · simp [h2]
    · simp [h2, committed]

/-- Either the handler leaves the committed store as it was and does not answer
201, or it took the commit path on the resolved working copy. -/
theorem register_cases (s : Store) (req : Request) (env : Env) :
    ((register s req env).reply.isSuccess = false ∧ (register s req env).store = s ∧
        (register s req env).emailed = none ∧
        ((register s req env).reply = atCapacityReply →
          findRegistration (resolve s req.body env.now).1 (resolve s req.body env.now).2.1.id
            (resolve s req.body env.now).2.2.id = none ∧
          (resolve s req.body env.now).2.2.registeredCount
            ≥ (resolve s req.body env.now).2.2.capacity)) ∨
      (findRegistration (resolve s req.body env.now).1 (resolve s req.body env.now).2.1.id
          (resolve s req.body env.now).2.2.id = none ∧
        (resolve s req.body env.now).2.2.registeredCount
          < (resolve s req.body env.now).2.2.capacity ∧
        register s req env = committed (resolve s req.body env.now) env) := by
  unfold register
  by_cases hv : req.validationErrors ≠ []
  · left; simp [hv, Reply.isSuccess, validationReply, atCapacityReply]
  · by_cases h0 : env.failing = some .transaction
    · left; simp [hv, h0, Reply.isSuccess, atCapacityReply]
    · by_cases h1 : env.failing = some .userFindOrCreate
      · left; simp [hv, h1, rolledBack, Reply.isSuccess, atCapacityReply]
      · simp only [hv, h0, h1, if_false]
        unfold resolveEvent resolve
        by_cases h2 : env.failing = some .eventFindOne
        · left; simp [h2, rolledBack, Reply.isSuccess, atCapacityReply]
        · simp only [h2, if_false]
          cases hfe : findEvent (findOrCreateUser s req.body).1 req.body.eventTitle with
          | some e => exact reserve_cases s _ _ e env
          | none =>
            by_cases h3 : env.failing = some .eventCreate
            · left; simp [h3, rolledBack, Reply.isSuccess, atCapacityReply]
            · simp only [h3, if_false]
              exact reserve_cases s _ _ _ env

theorem register_of_success (s : Store) (req : Request) (env : Env)
    (h : (register s req env).reply.isSuccess = true) :
    findRegistration (resolve s req.body env.now).1 (resolve s req.body env.now).2.1.id
        (resolve s req.body env.now).2.2.id = none ∧
      (resolve s req.body env.now).2.2.registeredCount
        < (resolve s req.body env.now).2.2.capacity ∧
      register s req env = committed (resolve s req.body env.now) env := by
  rcases register_cases s req env with ⟨hn, -⟩ | hc
  · rw [hn] at h; cases h
  · exact hc

theorem register_of_not_success (s : Store) (req : Request) (env : Env)
    (h : (register s req env).reply.isSuccess = false) :
    (register s req env).store = s ∧ (register s req env).emailed = none := by
  rcases register_cases s req env with ⟨-, hs, he, -⟩ | ⟨-, -, hc⟩
  · exact ⟨hs, he⟩
  · rw [hc] at h; simp [committed, successReply, Reply.isSuccess] at h

/-- With valid input and no storage failure the handler is the two checks
followed by the commit path. -/
theorem register_calm (s : Store) (req : Request) (env : Env)
    (hv : req.validationErrors = []) (hcalm : env.failing = none) :
    register s req env =
      match findRegistration (resolve s req.body env.now).1 (resolve s req.body env.now).2.1.id
          (resolve s req.body env.now).2.2.id with
      | some _ => rolledBack s alreadyRegisteredReply
      | none =>
        if (resolve s req.body env.now).2.2.registeredCount
            ≥ (resolve s req.body env.now).2.2.capacity then rolledBack s atCapacityReply
        else committed (resolve s req.body env.now) env := by
  unfold register resolveEvent resolve
  simp only [hv, hcalm, reduceCtorEq, if_false, ne_eq, not_true_eq_false]
  cases hfe : findEvent (findOrCreateUser s req.body).1 req.body.eventTitle with
  | some e => exact reserve_calm s _ _ e env hcalm
  | none => exact reserve_calm s _ _ _ env hcalm

/-! ## Facts about resolution -/

theorem resolve_registrations (s : Store) (b : Body) (now : Nat) :
    (resolve s b now).1.registrations = s.registrations := by
  unfold resolve findOrCreateUser createEvent
  cases findUser s b.email <;> simp only <;> split <;> rfl

theorem findEvent_findOrCreateUser (s : Store) (b : Body) (t : String) :
    findEvent (findOrCreateUser s b).1 t = findEvent s t := by
  unfold findOrCreateUser findEvent
  cases findUser s b.email <;> rfl

theorem findOrCreateUser_events (s : Store) (b : Body) :
    (findOrCreateUser s b).1.events = s.events := by
  unfold findOrCreateUser
  cases findUser s b.email <;> rfl

theorem resolve_eq (s : Store) (b : Body) (now : Nat) :
    resolve s b now =
      match findEvent s b.eventTitle with
      | some e => ((findOrCreateUser s b).1, (findOrCreateUser s b).2, e)
      | none =>
        ((createEvent (findOrCreateUser s b).1 b.eventTitle now).1, (findOrCreateUser s b).2,
          (createEvent (findOrCreateUser s b).1 b.eventTitle now).2) := by
  simp only [resolve, findEvent_findOrCreateUser]

theorem resolve_user (s : Store) (b : Body) (now : Nat) :
    (resolve s b now).2.1 = (findOrCreateUser s b).2 ∧
      (resolve s b now).1.users = (findOrCreateUser s b).1.users := by
  rw [resolve_eq]
  cases findEvent s b.eventTitle <;> exact ⟨rfl, rfl⟩

theorem findOrCreateUser_cases (s : Store) (b : Body) :
    (findUser s b.email = some (findOrCreateUser s b).2 ∧ (findOrCreateUser s b).1 = s) ∨
      (findUser s b.email = none ∧
        (findOrCreateUser s b).1.users = s.users ++ [(findOrCreateUser s b).2] ∧
        (findOrCreateUser s b).2 =
          { id := nextId (s.users.map (·.id)), firstName := b.firstName,
            lastName := b.lastName, email := b.email, age := b.age }) := by
  unfold findOrCreateUser
  cases h : findUser s b.email with
  | some u => left; exact ⟨rfl, rfl⟩
  | none => right; exact ⟨rfl, rfl, rfl⟩

theorem resolve_users_cases (s : Store) (b : Body) (now : Nat) :
    (findUser s b.email = some (resolve s b now).2.1 ∧ (resolve s b now).1.users = s.users) ∨
      (findUser s b.email = none ∧
        (resolve s b now).1.users = s.users ++ [(resolve s b now).2.1] ∧
        (resolve s b now).2.1 =
          { id := nextId (s.users.map (·.id)), firstName := b.firstName,
            lastName := b.lastName, email := b.email, age := b.age }) := by
  obtain ⟨hu, hus⟩ := resolve_user s b now
  rw [hu, hus]
  rcases findOrCreateUser_cases s b with ⟨h1, h2⟩ | h
  · left; exact ⟨h1, by rw [h2]⟩
  · right; exact h

theorem resolve_events_cases (s : Store) (b : Body) (now : Nat) :
    (findEvent s b.eventTitle = some (resolve s b now).2.2 ∧
        (resolve s b now).1.events = s.events) ∨
      (findEvent s b.eventTitle = none ∧
        (resolve s b now).1.events = s.events ++ [(resolve s b now).2.2] ∧
        (resolve s b now).2.2 =
          { id := nextId (s.events.map (·.id)), title := b.eventTitle, date := now,
            location := "To be announced", capacity := 100, registeredCount := 0 }) := by
  rw [resolve_eq]
  cases h : findEvent s b.eventTitle with
  | some e => left; exact ⟨rfl, findOrCreateUser_events s b⟩
  | none =>
    right
    refine ⟨rfl, ?_, ?_⟩
    · simp [createEvent, findOrCreateUser_events]
    · simp [createEvent, findOrCreateUser_events, defaultRegisteredCount]

/-- A storage call that the handler always reaches before it can commit makes
the request fail. -/
theorem register_failing (s : Store) (req : Request) (env : Env) (op : StorageOp)
    (hop : env.failing = some op) (hne : op ≠ .eventCreate) :
    (register s req env).reply.isSuccess = false := by
  unfold register
  by_cases hv : req.validationErrors ≠ []
  · simp [hv, Reply.isSuccess, validationReply]
  · simp only [hv, if_false]
    unfold resolveEvent reserve
    cases op <;> simp only [hop] <;> first
      | exact absurd rfl hne
      | (simp only [reduceCtorEq, if_false, if_true, Option.some.injEq]
         repeat' split
         all_goals rfl)

theorem register_emailRejects (s : Store) (req : Request) (env : Env) (b : Bool) :
    (register s req { env with emailRejects := b }).store = (register s req env).store ∧
      (register s req { env with emailRejects := b }).reply = (register s req env).reply ∧
      (register s req { env with emailRejects := b }).emailed = (register s req env).emailed := by
  have key : ∀ e1 e2 : Env, e1.now = e2.now → e1.failing = e2.failing →
      (register s req e1).store = (register s req e2).store ∧
      (register s req e1).reply = (register s req e2).reply ∧
      (register s req e1).emailed = (register s req e2).emailed := by
    intro e1 e2 hn hf
    unfold register resolveEvent reserve
    simp only [hn, hf]
    repeat' split
    all_goals exact ⟨rfl, rfl, rfl⟩
  exact key _ _ rfl rfl

theorem resolve_event_title (s : Store) (b : Body) (now : Nat) :
    (resolve s b now).2.2.title = b.eventTitle := by
  rcases resolve_events_cases s b now with ⟨h, -⟩ | ⟨-, -, h⟩
  · simpa using List.find?_some h
  · rw [h]

theorem resolve_user_email (s : Store) (b : Body) (now : Nat) :
    (resolve s b now).2.1.email = b.email := by
  rcases resolve_users_cases s b now with ⟨h, -⟩ | ⟨-, -, h⟩
  · simpa using List.find?_some h
  · rw [h]

theorem duplicate_of_holds (s : Store) (b : Body) (now : Nat) (u : User) (e : Event)
    (hu : findUser s b.email = some u) (he : findEvent s b.eventTitle = some e)
    (hr : ∃ r ∈ s.registrations, r.UserId = u.id ∧ r.EventId = e.id) :
    duplicate s b now = true := by
  have h1 : (resolve s b now).2.1 = u := by
    rcases resolve_users_cases s b now with ⟨h, -⟩ | ⟨h, -⟩
    · rw [hu] at h; exact (Option.some.inj h).symm
    · rw [hu] at h; cases h
  have h2 : (resolve s b now).2.2 = e := by
    rcases resolve_events_cases s b now with ⟨h, -⟩ | ⟨h, -⟩
    · rw [he] at h; exact (Option.some.inj h).symm
    · rw [he] at h; cases h
  unfold duplicate findRegistration
  rw [resolve_registrations, h1, h2, List.find?_isSome]
  obtain ⟨r, hr, h⟩ := hr
  exact ⟨r, hr, by simpa using h⟩

/-! ## Facts about the commit path -/

theorem committed_users (r : Store × User × Event) (env : Env) :
    (committed r env).store.users = r.1.users := rfl

theorem committed_events (r : Store × User × Event) (env : Env) :
    (committed r env).store.events = r.1.events.map (bump r.2.2.id) := rfl

theorem committed_registrations (r : Store × User × Event) (env : Env) :
    (committed r env).store.registrations =
      r.1.registrations ++
        [{ id := nextId (r.1.registrations.map (·.id)), UserId := r.2.1.id,
           EventId := r.2.2.id }] := rfl

theorem bump_id (i : Nat) (e : Event) : (bump i e).id = e.id := by
  unfold bump; split <;> rfl

theorem bump_title (i : Nat) (e : Event) : (bump i e).title = e.title := by
  unfold bump; split <;> rfl

theorem bump_capacity (i : Nat) (e : Event) : (bump i e).capacity = e.capacity := by
  unfold bump; split <;> rfl

theorem map_bump_ids (i : Nat) (l : List Event) :
    (l.map (bump i)).map (·.id) = l.map (·.id) := by
  simp [List.map_map, Function.comp_def, bump_id]

theorem find_title_map_bump (i : Nat) (t : String) (l : List Event) :
    (l.map (bump i)).find? (fun e => decide (e.title = t))
      = (l.find? (fun e => decide (e.title = t))).map (bump i) := by
  rw [List.find?_map]
  congr 2
  funext e
  simp [bump_title]

theorem resolve_event_mem (s : Store) (b : Body) (now : Nat) :
    (resolve s b now).2.2 ∈ (resolve s b now).1.events := by
  rcases resolve_events_cases s b now with ⟨h, he⟩ | ⟨-, he, -⟩
  · rw [he]; exact List.mem_of_find?_eq_some h
  · rw [he]; simp

theorem resolve_findEvent (s : Store) (b : Body) (now : Nat) :
    findEvent (resolve s b now).1 b.eventTitle = some (resolve s b now).2.2 := by
  rcases resolve_events_cases s b now with ⟨h, he⟩ | ⟨h, he, hp⟩
  · unfold findEvent at h ⊢; rw [he]; exact h
  · unfold findEvent at h ⊢
    rw [he, List.find?_append, h]
    have : (resolve s b now).2.2.title = b.eventTitle := by rw [hp]
    simp [this]

theorem resolve_user_mem (s : Store) (b : Body) (now : Nat) :
    (resolve s b now).2.1 ∈ (resolve s b now).1.users := by
  rcases resolve_users_cases s b now with ⟨h, he⟩ | ⟨-, he, -⟩
  · rw [he]; exact List.mem_of_find?_eq_some h
  · rw [he]; simp

theorem resolve_findUser (s : Store) (b : Body) (now : Nat) :
    findUser (resolve s b now).1 b.email = some (resolve s b now).2.1 := by
  rcases resolve_users_cases s b now with ⟨h, he⟩ | ⟨h, he, hp⟩
  · unfold findUser at h ⊢; rw [he]; exact h
  · unfold findUser at h ⊢
    rw [he, List.find?_append, h]
    have : (resolve s b now).2.1.email = b.email := by rw [hp]
    simp [this]

theorem resolve_eventIdsUnique (s : Store) (b : Body) (now : Nat) (h : EventIdsUnique s) :
    EventIdsUnique (resolve s b now).1 := by
  unfold EventIdsUnique at h ⊢
  rcases resolve_events_cases s b now with ⟨-, he⟩ | ⟨-, he, hp⟩
  · rw [he]; exact h
  · rw [he, List.map_append, List.nodup_append]
    refine ⟨h, List.nodup_singleton _, ?_⟩
    intro x hx hx'
    rw [hp] at hx'
    simp only [List.map_cons, List.map_nil, List.mem_singleton] at hx'
    have := lt_nextId _ x hx
    omega

theorem resolve_userIdsUnique (s : Store) (b : Body) (now : Nat) (h : UserIdsUnique s) :
    UserIdsUnique (resolve s b now).1 := by
  unfold UserIdsUnique at h ⊢
  rcases resolve_users_cases s b now with ⟨-, he⟩ | ⟨-, he, hp⟩
  · rw [he]; exact h
  · rw [he, List.map_append, List.nodup_append]
    refine ⟨h, List.nodup_singleton _, ?_⟩
    intro x hx hx'
    rw [hp] at hx'
    simp only [List.map_cons, List.map_nil, List.mem_singleton] at hx'
    have := lt_nextId _ x hx
    omega

theorem register_eventIdsUnique (s : Store) (req : Request) (env : Env)
    (h : EventIdsUnique s) : EventIdsUnique (register s req env).store := by
  rcases register_cases s req env with ⟨-, hs, -⟩ | ⟨-, -, hc⟩
  · rw [hs]; exact h
  · rw [hc]
    unfold EventIdsUnique
    rw [committed_events, map_bump_ids]
    exact resolve_eventIdsUnique s req.body env.now h

theorem register_userIdsUnique (s : Store) (req : Request) (env : Env)
    (h : UserIdsUnique s) : UserIdsUnique (register s req env).store := by
  rcases register_cases s req env with ⟨-, hs, -⟩ | ⟨-, -, hc⟩
  · rw [hs]; exact h
  · rw [hc]
    unfold UserIdsUnique
    rw [committed_users]
    exact resolve_userIdsUnique s req.body env.now h

theorem resolve_capacityOk (s : Store) (b : Body) (now : Nat) (h : CapacityOk s) :
    CapacityOk (resolve s b now).1 := by
  unfold CapacityOk at h ⊢
  rcases resolve_events_cases s b now with ⟨-, he⟩ | ⟨-, he, hp⟩
  · rw [he]; exact h
  · rw [he]
    intro e hmem
    rcases List.mem_append.1 hmem with h1 | h1
    · exact h e h1
    · rw [List.mem_singleton] at h1
      rw [h1, hp]
      simp

theorem register_capacityOk (s : Store) (req : Request) (env : Env)
    (hid : EventIdsUnique s) (h : CapacityOk s) : CapacityOk (register s req env).store := by
  rcases register_cases s req env with ⟨-, hs, -⟩ | ⟨-, hlt, hc⟩
  · rw [hs]; exact h
  · rw [hc]
    have hw := resolve_capacityOk s req.body env.now h
    have hu := resolve_eventIdsUnique s req.body env.now hid
    have hmem := resolve_event_mem s req.body env.now
    intro x hx
    rw [committed_events, List.mem_map] at hx
    obtain ⟨y, hy, rfl⟩ := hx
    unfold bump
    by_cases hyid : y.id = (resolve s req.body env.now).2.2.id
    · have hye : y = (resolve s req.body env.now).2.2 :=
        List.inj_on_of_nodup_map hu hy hmem hyid
      have := hw y hy
      rw [if_pos hyid]
      subst hye
      simp only
      constructor <;> omega
    · rw [if_neg hyid]; exact hw y hy

theorem runAll_capacityOk (calls : List (Request × Env)) :
    ∀ s : Store, EventIdsUnique s → CapacityOk s → CapacityOk (runAll s calls) := by
  induction calls with
  | nil => intro s _ h; exact h
  | cons c rest ih =>
    intro s hid h
    obtain ⟨req, env⟩ := c
    exact ih _ (register_eventIdsUnique s req env hid) (register_capacityOk s req env hid h)

/-! ## Ledger consistency -/

theorem registrationsFor_resolve (s : Store) (b : Body) (now : Nat) (i : Nat) :
    registrationsFor (resolve s b now).1 i = registrationsFor s i := by
  unfold registrationsFor; rw [resolve_registrations]

theorem resolve_refsResolve (s : Store) (b : Body) (now : Nat) (hr : RefsResolve s) :
    RefsResolve (resolve s b now).1 := by
  intro r hmem
  rw [resolve_registrations] at hmem
  obtain ⟨e, he, hid⟩ := hr r hmem
  refine ⟨e, ?_, hid⟩
  rcases resolve_events_cases s b now with ⟨-, h⟩ | ⟨-, h, -⟩ <;> rw [h]
  · exact he
  · exact List.mem_append_left _ he

theorem resolve_ledger (s : Store) (b : Body) (now : Nat) (hr : RefsResolve s)
    (hl : Ledger s) : Ledger (resolve s b now).1 := by
  intro e hmem
  rw [registrationsFor_resolve]
  rcases resolve_events_cases s b now with ⟨-, h⟩ | ⟨-, h, hp⟩
  · rw [h] at hmem; exact hl e hmem
  · rw [h] at hmem
    rcases List.mem_append.1 hmem with h1 | h1
    · exact hl e h1
    · rw [List.mem_singleton] at h1
      have hz : registrationsFor s e.id = 0 := by
        unfold registrationsFor
        rw [List.countP_eq_zero]
        intro r hrm hEq
        obtain ⟨x, hx, hxid⟩ := hr r hrm
        have hlt := lt_nextId (s.events.map (·.id)) x.id (List.mem_map_of_mem _ hx)
        have hEq' : r.EventId = e.id := by simpa using hEq
        rw [h1, hp] at hEq'
        simp only at hEq'
        omega
      rw [hz, h1, hp]
      rfl

theorem committed_ledger (r : Store × User × Event) (env : Env) (hl : Ledger r.1) :
    Ledger (committed r env).store := by
  intro x hx
  rw [committed_events, List.mem_map] at hx
  obtain ⟨y, hy, rfl⟩ := hx
  have hy' := hl y hy
  unfold registrationsFor at hy' ⊢
  rw [committed_registrations, List.countP_append, List.countP_singleton, bump_id]
  unfold bump
  by_cases hyid : y.id = r.2.2.id
  · simp only [hyid, if_true, decide_True]
    rw [hyid] at hy'
    push_cast
    omega
  · have hne : ¬ r.2.2.id = y.id := fun h => hyid h.symm
    simp only [hyid, hne, if_false, decide_False]
    simpa using hy'

theorem committed_refsResolve (r : Store × User × Event) (env : Env)
    (hr : RefsResolve r.1) (hmem : r.2.2 ∈ r.1.events) :
    RefsResolve (committed r env).store := by
  intro x hx
  rw [committed_registrations] at hx
  rw [committed_events]
  rcases List.mem_append.1 hx with h | h
  · obtain ⟨e, he, hid⟩ := hr x h
    exact ⟨bump r.2.2.id e, List.mem_map_of_mem _ he, by rw [bump_id]; exact hid⟩
  · rw [List.mem_singleton] at h
    exact ⟨bump r.2.2.id r.2.2, List.mem_map_of_mem _ hmem, by rw [bump_id, h]⟩

/-! ## Lookups after a commit -/

theorem committed_findEvent (r : Store × User × Event) (env : Env) (t : String)
    (h : findEvent r.1 t = some r.2.2) :
    findEvent (committed r env).store t =
      some { r.2.2 with registeredCount := r.2.2.registeredCount + 1 } := by
  unfold findEvent at h ⊢
  rw [committed_events, find_title_map_bump, h]
  simp [bump]

theorem committed_findUser (r : Store × User × Event) (env : Env) (m : String) :
    findUser (committed r env).store m = findUser r.1 m := rfl

theorem registrationsOf_eq_zero (s : Store) (u e : Nat) (h : findRegistration s u e = none) :
    registrationsOf s u e = 0 := by
  unfold findRegistration at h
  unfold registrationsOf
  rw [List.find?_eq_none] at h
  rw [List.countP_eq_zero]
  exact h

/-! ## A held registration stays held -/

theorem resolve_findUser_stable (s : Store) (b : Body) (now : Nat) (m : String) (u : User)
    (h : findUser s m = some u) : findUser (resolve s b now).1 m = some u := by
  unfold findUser at h ⊢
  rcases resolve_users_cases s b now with ⟨-, he⟩ | ⟨-, he, -⟩ <;> rw [he]
  · exact h
  · rw [List.find?_append, h]; rfl

theorem resolve_findEvent_stable (s : Store) (b : Body) (now : Nat) (t : String) (e : Event)
    (h : findEvent s t = some e) : findEvent (resolve s b now).1 t = some e := by
  unfold findEvent at h ⊢
  rcases resolve_events_cases s b now with ⟨-, he⟩ | ⟨-, he, -⟩ <;> rw [he]
  · exact h
  · rw [List.find?_append, h]; rfl

theorem committed_findEvent_map (r : Store × User × Event) (env : Env) (t : String) :
    findEvent (committed r env).store t = (findEvent r.1 t).map (bump r.2.2.id) := by
  unfold findEvent
  rw [committed_events, find_title_map_bump]

theorem resolve_user_of_found (s : Store) (b : Body) (now : Nat) (u : User)
    (h : findUser s b.email = some u) : (resolve s b now).2.1 = u := by
  rcases resolve_users_cases s b now with ⟨h', -⟩ | ⟨h', -⟩
  · rw [h] at h'; exact (Option.some.inj h').symm
  · rw [h] at h'; cases h'

theorem resolve_event_of_found (s : Store) (b : Body) (now : Nat) (e : Event)
    (h : findEvent s b.eventTitle = some e) :
    (resolve s b now).2.2 = e ∧ (resolve s b now).1.events = s.events := by
  rcases resolve_events_cases s b now with ⟨h', he⟩ | ⟨h', -⟩
  · rw [h] at h'; exact ⟨(Option.some.inj h').symm, he⟩
  · rw [h] at h'; cases h'

theorem registrationsOf_resolve (s : Store) (b : Body) (now : Nat) (u e : Nat) :
    registrationsOf (resolve s b now).1 u e = registrationsOf s u e := by
  unfold registrationsOf; rw [resolve_registrations]

theorem held_register (s : Store) (m t : String) (uid eid : Nat) (req : Request) (env : Env)
    (h : Held s m t uid eid) : Held (register s req env).store m t uid eid := by
  rcases register_cases s req env with ⟨-, hs, -⟩ | ⟨hnone, -, hc⟩
  · rw [hs]; exact h
  · obtain ⟨⟨u, hu, huid⟩, ⟨e, he, heid⟩, hcount⟩ := h
    rw [hc]
    refine ⟨⟨u, ?_, huid⟩, ⟨bump (resolve s req.body env.now).2.2.id e, ?_, ?_⟩, ?_⟩
    · rw [committed_findUser]; exact resolve_findUser_stable s req.body env.now m u hu
    · rw [committed_findEvent_map, resolve_findEvent_stable s req.body env.now t e he]; rfl
    · rw [bump_id]; exact heid
    · have hz := registrationsOf_eq_zero _ _ _ hnone
      rw [registrationsOf_resolve] at hz
      unfold registrationsOf at hz hcount ⊢
      rw [committed_registrations, resolve_registrations, List.countP_append, hcount,
        List.countP_singleton]
      by_cases hm : (resolve s req.body env.now).2.1.id = uid ∧
          (resolve s req.body env.now).2.2.id = eid
      · rw [hm.1, hm.2, hcount] at hz; cases hz
      · simp [hm]

theorem held_runAll (m t : String) (uid eid : Nat) (calls : List (Request × Env)) :
    ∀ s : Store, Held s m t uid eid → Held (runAll s calls) m t uid eid := by
  induction calls with
  | nil => intro s h; exact h
  | cons c rest ih =>
    intro s h
    obtain ⟨req, env⟩ := c
    exact ih _ (held_register s m t uid eid req env h)

theorem held_of_success (s : Store) (req : Request) (env : Env)
    (h : (register s req env).reply.isSuccess = true) :
    Held (register s req env).store req.body.email req.body.eventTitle
      (resolve s req.body env.now).2.1.id (resolve s req.body env.now).2.2.id := by
  obtain ⟨hnone, -, hc⟩ := register_of_success s req env h
  rw [hc]
  refine ⟨⟨_, ?_, rfl⟩, ⟨_, committed_findEvent _ env _ (resolve_findEvent s req.body env.now),
    rfl⟩, ?_⟩
  · rw [committed_findUser]; exact resolve_findUser s req.body env.now
  · have hz := registrationsOf_eq_zero _ _ _ hnone
    unfold registrationsOf at hz ⊢
    rw [committed_registrations, List.countP_append, hz, List.countP_singleton]
    simp

theorem held_duplicate (s : Store) (b : Body) (now : Nat) (uid eid : Nat)
    (h : Held s b.email b.eventTitle uid eid) : duplicate s b now = true := by
  obtain ⟨⟨u, hu, huid⟩, ⟨e, he, heid⟩, hcount⟩ := h
  have hpos : 0 < registrationsOf s uid eid := by omega
  unfold registrationsOf at hpos
  rw [List.countP_pos_iff] at hpos
  obtain ⟨r, hr, hp⟩ := hpos
  refine duplicate_of_holds s b now u e hu he ⟨r, hr, ?_⟩
  rw [huid, heid]
  simpa using hp

theorem held_not_success (s : Store) (req : Request) (env : Env) (uid eid : Nat)
    (h : Held s req.body.email req.body.eventTitle uid eid) :
    (register s req env).reply.isSuccess = false ∧ (register s req env).store = s := by
  have hd := held_duplicate s req.body env.now uid eid h
  rcases register_cases s req env with ⟨hn, hs, -⟩ | ⟨hnone, -, -⟩
  · exact ⟨hn, hs⟩
  · unfold duplicate at hd
    rw [hnone] at hd
    cases hd

theorem held_rejected (s : Store) (req : Request) (env : Env) (uid eid : Nat)
    (h : Held s req.body.email req.body.eventTitle uid eid)
    (hv : req.validationErrors = []) (hcalm : env.failing = none) :
    (register s req env).reply = alreadyRegisteredReply := by
  have hd := held_duplicate s req.body env.now uid eid h
  rw [register_calm s req env hv hcalm]
  unfold duplicate at hd
  cases hf : findRegistration (resolve s req.body env.now).1 (resolve s req.body env.now).2.1.id
      (resolve s req.body env.now).2.2.id with
  | some r => rfl
  | none => rw [hf] at hd; cases hd

/-! ## Admissions to one event -/

theorem resolve_users_subset (s : Store) (b : Body) (now : Nat) :
    ∀ x ∈ s.users, x ∈ (resolve s b now).1.users := by
  intro x hx
  rcases resolve_users_cases s b now with ⟨-, he⟩ | ⟨-, he, -⟩ <;> rw [he]
  · exact hx
  · exact List.mem_append_left _ hx

theorem resolve_user_of_id (s : Store) (b : Body) (now : Nat) (x : User)
    (hx : x ∈ s.users) (hid : x.id = (resolve s b now).2.1.id) :
    findUser s b.email = some (resolve s b now).2.1 := by
  rcases resolve_users_cases s b now with ⟨h, -⟩ | ⟨-, -, hp⟩
  · exact h
  · exfalso
    have hlt := lt_nextId (s.users.map (·.id)) x.id (List.mem_map_of_mem _ hx)
    rw [hp] at hid
    simp only at hid
    omega

theorem toFinset_append_singleton (P : List String) (m : String) :
    (P ++ [m]).toFinset = insert m P.toFinset := by
  ext x
  simp only [List.toFinset_append, List.toFinset_cons, List.toFinset_nil, Finset.mem_union,
    Finset.mem_insert, List.mem_toFinset, Finset.not_mem_empty, or_false]
  tauto

theorem registrationsFor_committed (r : Store × User × Event) (env : Env) :
    registrationsFor (committed r env).store r.2.2.id = registrationsFor r.1 r.2.2.id + 1 := by
  unfold registrationsFor
  rw [committed_registrations, List.countP_append, List.countP_singleton]
  simp

theorem seat_committed (s : Store) (b : Body) (now : Nat) (env : Env) (eid : Nat) (m : String)
    (h : Seat s eid m) : Seat (committed (resolve s b now) env).store eid m := by
  obtain ⟨u, r, hu, hr, h1, h2⟩ := h
  refine ⟨u, r, ?_, ?_, h1, h2⟩
  · rw [committed_findUser]; exact resolve_findUser_stable s b now m u hu
  · rw [committed_registrations, resolve_registrations]
    exact List.mem_append_left _ hr

/-- One more request for the event, with valid input and no storage failure,
keeps the admission state, its email added to those that have asked. -/
theorem admission_register (s : Store) (t : String) (eid C : Nat) (P : List String)
    (req : Request) (env : Env) (h : Admission s t eid C P) (ht : req.body.eventTitle = t)
    (hv : req.validationErrors = []) (hcalm : env.failing = none) :
    Admission (register s req env).store t eid C (P ++ [req.body.email]) := by
  obtain ⟨⟨e, he, heid, hcap, hrc⟩, huid, hhold, hseats, hcount⟩ := h
  subst ht
  obtain ⟨hre, -⟩ := resolve_event_of_found s req.body env.now e he
  have humem := resolve_user_mem s req.body env.now
  have huemail := resolve_user_email s req.body env.now
  have hwuid := resolve_userIdsUnique s req.body env.now huid
  have hsub := resolve_users_subset s req.body env.now
  have hregs := resolve_registrations s req.body env.now
  have hfin := toFinset_append_singleton P req.body.email
  have hPsub : ∀ x ∈ P, x ∈ P ++ [req.body.email] := fun x hx => List.mem_append_left _ hx
  have hcard : P.toFinset.card ≤ (P ++ [req.body.email]).toFinset.card := by
    rw [hfin]; exact Finset.card_le_card (Finset.subset_insert _ _)
  rw [register_calm s req env hv hcalm, hre]
  cases hf : findRegistration (resolve s req.body env.now).1
      (resolve s req.body env.now).2.1.id e.id with
  | some r =>
    show Admission s _ _ _ _
    have hrmem : r ∈ s.registrations := by
      rw [← hregs]; exact List.mem_of_find?_eq_some hf
    have hrp : r.UserId = (resolve s req.body env.now).2.1.id ∧ r.EventId = e.id := by
      simpa using List.find?_some hf
    obtain ⟨x, hx, hxid, hxP⟩ := hhold r hrmem (by rw [hrp.2, heid])
    have hfound := resolve_user_of_id s req.body env.now x hx (by rw [hxid, hrp.1])
    have hxeq : x = (resolve s req.body env.now).2.1 :=
      List.inj_on_of_nodup_map hwuid (hsub x hx) humem (by rw [hxid, hrp.1])
    have hmP : req.body.email ∈ P := by rw [← huemail, ← hxeq]; exact hxP
    have hfin' : (P ++ [req.body.email]).toFinset = P.toFinset := by
      rw [hfin]; exact Finset.insert_eq_of_mem (List.mem_toFinset.2 hmP)
    refine ⟨⟨e, he, heid, hcap, hrc⟩, huid, ?_, ?_, ?_⟩
    · intro r' hr' hE
      obtain ⟨y, hy, hyid, hyP⟩ := hhold r' hr' hE
      exact ⟨y, hy, hyid, hPsub _ hyP⟩
    · intro hlt m hm
      rcases List.mem_append.1 hm with h1 | h1
      · exact hseats hlt m h1
      · rw [List.mem_singleton] at h1
        rw [h1]
        exact ⟨_, r, hfound, hrmem, hrp.1, by rw [hrp.2, heid]⟩
    · rw [hfin']; exact hcount
  | none =>
    by_cases hfull : e.registeredCount ≥ e.capacity
    · rw [if_pos hfull]
      show Admission s _ _ _ _
      have hge : C ≤ registrationsFor s eid := by
        rw [hcap, hrc] at hfull; exact_mod_cast hfull
      refine ⟨⟨e, he, heid, hcap, hrc⟩, huid, ?_, ?_, ?_⟩
      · intro r' hr' hE
        obtain ⟨y, hy, hyid, hyP⟩ := hhold r' hr' hE
        exact ⟨y, hy, hyid, hPsub _ hyP⟩
      · intro hlt; omega
      · have := Nat.min_le_left C P.toFinset.card
        have h2 : C ≤ P.toFinset.card := by
          by_contra hcon
          rw [Nat.min_eq_right (by omega)] at hcount
          omega
        rw [Nat.min_eq_left (by omega)]
        omega
    · rw [if_neg hfull]
      have hlt : registrationsFor s eid < C := by
        rw [hcap, hrc] at hfull
        have : ¬ ((C : Int) ≤ (registrationsFor s eid : Int)) := hfull
        exact_mod_cast lt_of_not_ge this
      have hall := hseats hlt
      have hmP : req.body.email ∉ P := by
        intro hm
        obtain ⟨u, r, hu, hr, h1, h2⟩ := hall _ hm
        have hue := resolve_user_of_found s req.body env.now u hu
        unfold findRegistration at hf
        rw [List.find?_eq_none, hregs] at hf
        apply hf r hr
        rw [hue]
        simp [h1, h2, heid]
      have hcard' : (P ++ [req.body.email]).toFinset.card = P.toFinset.card + 1 := by
        rw [hfin]
        exact Finset.card_insert_of_not_mem (fun hc => hmP (List.mem_toFinset.1 hc))
      have hcnt : registrationsFor (committed (resolve s req.body env.now) env).store eid
          = registrationsFor s eid + 1 := by
        have := registrationsFor_committed (resolve s req.body env.now) env
        rw [hre, heid, registrationsFor_resolve] at this
        exact this
      have hev := committed_findEvent (resolve s req.body env.now) env req.body.eventTitle
        (resolve_findEvent s req.body env.now)
      rw [hre] at hev
      refine ⟨⟨_, hev, heid, hcap, ?_⟩, ?_, ?_, ?_, ?_⟩
      · rw [hcnt]; push_cast; show e.registeredCount + 1 = _; rw [hrc]
      · unfold UserIdsUnique; rw [committed_users]; exact hwuid
      · intro r' hr' hE
        rw [committed_registrations, hregs] at hr'
        rw [committed_users]
        rcases List.mem_append.1 hr' with h1 | h1
        · obtain ⟨y, hy, hyid, hyP⟩ := hhold r' h1 hE
          exact ⟨y, hsub y hy, hyid, hPsub _ hyP⟩
        · rw [List.mem_singleton] at h1
          refine ⟨_, humem, by rw [h1], ?_⟩
          rw [huemail]; simp
      · intro _ m hm
        rcases List.mem_append.1 hm with h1 | h1
        · exact seat_committed s req.body env.now env eid m (hall m h1)
        · rw [List.mem_singleton] at h1
          rw [h1]
          refine ⟨_, ⟨nextId (s.registrations.map (·.id)),
            (resolve s req.body env.now).2.1.id, eid⟩, ?_, ?_, rfl, rfl⟩
          · rw [committed_findUser]; exact resolve_findUser s req.body env.now
          · rw [committed_registrations, hregs, hre, heid]; simp
      · rw [hcnt, hcard', hcount]
        have : P.toFinset.card < C := by
          by_contra hcon
          rw [hcount, Nat.min_eq_left (by omega)] at hlt
          omega
        rw [Nat.min_eq_right (by omega), Nat.min_eq_right (by omega)]

theorem admission_runAll (t : String) (eid C : Nat) (calls : List (Request × Env)) :
    ∀ (s : Store) (P : List String), Admission s t eid C P →
      (∀ c ∈ calls, c.1.body.eventTitle = t ∧ c.1.validationErrors = [] ∧ c.2.failing = none) →
      Admission (runAll s calls) t eid C (P ++ calls.map (fun c => c.1.body.email)) := by
  induction calls with
  | nil => intro s P h _; simpa [runAll] using h
  | cons c rest ih =>
    intro s P h hall
    obtain ⟨req, env⟩ := c
    obtain ⟨ht, hv, hcalm⟩ := hall (req, env) (List.mem_cons_self _ _)
    have hstep := admission_register s t eid C P req env h ht hv hcalm
    have := ih _ _ hstep (fun c hc => hall c (List.mem_cons_of_mem _ hc))
    simpa [runAll, List.append_assoc] using this

theorem admission_init (s : Store) (t : String) (e : Event) (C : Nat)
    (hfind : findEvent s t = some e) (hcap : e.capacity = (C : Int))
    (hrc : e.registeredCount = 0) (hnone : registrationsFor s e.id = 0)
    (huid : UserIdsUnique s) : Admission s t e.id C [] := by
  refine ⟨⟨e, hfind, rfl, hcap, by rw [hrc, hnone]; rfl⟩, huid, ?_, ?_, ?_⟩
  · intro r hr hE
    exfalso
    unfold registrationsFor at hnone
    rw [List.countP_eq_zero] at hnone
    exact hnone r hr (by simpa using hE)
  · intro _ m hm; cases hm
  · rw [hnone]; simp

/-- Scenario A in general form: capacity 1, two requests by different emails. -/
theorem capacity_one_scenario (s : Store) (t : String) (e : Event)
    (hfind : findEvent s t = some e) (hcap : e.capacity = 1)
    (hrc : e.registeredCount = 0) (hnone : registrationsFor s e.id = 0)
    (huid : UserIdsUnique s) (reqA reqB : Request) (envA envB : Env)
    (htA : reqA.body.eventTitle = t) (hvA : reqA.validationErrors = [])
    (hcA : envA.failing = none)
    (htB : reqB.body.eventTitle = t) (hvB : reqB.validationErrors = [])
    (hcB : envB.failing = none) (hne : reqA.body.email ≠ reqB.body.email) :
    (register s reqA envA).reply = successReply t (nextId (s.registrations.map (·.id))) ∧
      (∃ e1, findEvent (register s reqA envA).store t = some e1 ∧ e1.registeredCount = 1) ∧
      (register (register s reqA envA).store reqB envB).reply = atCapacityReply ∧
      (register (register s reqA envA).store reqB envB).store = (register s reqA envA).store := by
  have h0 := admission_init s t e 1 hfind (by rw [hcap]; rfl) hrc hnone huid
  have h1 := admission_register s t e.id 1 [] reqA envA h0 htA hvA hcA
  obtain ⟨⟨e1, he1, he1id, he1cap, he1rc⟩, huid1, hhold1, -, hcount1⟩ := h1
  have hone : registrationsFor (register s reqA envA).store e.id = 1 := by
    rw [hcount1]; simp
  have hreplyA : (register s reqA envA).reply
      = successReply t (nextId (s.registrations.map (·.id))) := by
    rcases register_cases s reqA envA with ⟨-, hs, -⟩ | ⟨-, -, hc⟩
    · rw [hs, hnone] at hone; cases hone
    · rw [hc]
      show successReply _ _ = _
      rw [resolve_event_title, htA]
      simp [createRegistration, resolve_registrations]
  have he1rc' : e1.registeredCount = 1 := by rw [he1rc, hone]; rfl
  refine ⟨hreplyA, ⟨e1, he1, he1rc'⟩, ?_⟩
  subst htB
  obtain ⟨hre, -⟩ := resolve_event_of_found _ reqB.body envB.now e1 he1
  rw [register_calm _ reqB envB hvB hcB, hre]
  cases hf : findRegistration (resolve (register s reqA envA).store reqB.body envB.now).1
      (resolve (register s reqA envA).store reqB.body envB.now).2.1.id e1.id with
  | some r =>
    exfalso
    have hrmem : r ∈ (register s reqA envA).store.registrations := by
      rw [← resolve_registrations _ reqB.body envB.now]; exact List.mem_of_find?_eq_some hf
    have hrp : r.UserId = (resolve (register s reqA envA).store reqB.body envB.now).2.1.id ∧
        r.EventId = e1.id := by
      simpa using List.find?_some hf
    obtain ⟨x, hx, hxid, hxP⟩ := hhold1 r hrmem (by rw [hrp.2, he1id])
    have hxeq : x = (resolve (register s reqA envA).store reqB.body envB.now).2.1 :=
      List.inj_on_of_nodup_map (resolve_userIdsUnique _ reqB.body envB.now huid1)
        (resolve_users_subset _ reqB.body envB.now x hx)
        (resolve_user_mem _ reqB.body envB.now) (by rw [hxid, hrp.1])
    have hxm : x.email = reqA.body.email := by simpa using hxP
    rw [hxeq, resolve_user_email] at hxm
    exact hne hxm.symm
  | none =>
    have hfull : e1.registeredCount ≥ e1.capacity := by
      rw [he1rc', he1cap]; rfl
    rw [if_pos hfull]
    exact ⟨rfl, rfl⟩

/-! ## Claims -/

/-- C5. Rollback atomicity: a request that does not commit (any reply other
than the 201 reply: at-capacity, duplicate, a storage call that threw, invalid
input) leaves the committed store exactly as it was, so no `Registration`, no
counter change and no `User` or placeholder `Event` of the working copy
survives, and nothing is handed to the notification step. -/
theorem rollback_atomicity (s : Store) (req : Request) (env : Env)
    (h : (register s req env).reply.isSuccess = false) :
    (register s req env).store = s ∧ (register s req env).emailed = none :=
  register_of_not_success s req env h

theorem rollback_atomicity_witness :
    (register store1 ⟨bodyB, []⟩ calm).reply = atCapacityReply ∧
      (resolve store1 bodyB 7).1 ≠ store1 ∧
      (register store1 ⟨bodyB, []⟩ calm).store = store1 :=
  ⟨by decide, by decide, (rollback_atomicity store1 ⟨bodyB, []⟩ calm (by decide)).1⟩

/-- C6. Check order: with valid input and no storage failure, a request whose
person already holds a registration for the event is answered with the
already-registered rejection and not the at-capacity one, also when the event
is full; the at-capacity rejection is returned exactly when the duplicate check
finds nothing for the resolved pair and `registeredCount >= capacity`, and the
already-registered rejection exactly when the duplicate check finds a row. -/
theorem duplicate_check_before_capacity_check (s : Store) (req : Request) (env : Env)
    (hv : req.validationErrors = []) (hcalm : env.failing = none) :
    (∀ u e, findUser s req.body.email = some u → findEvent s req.body.eventTitle = some e →
        (∃ r ∈ s.registrations, r.UserId = u.id ∧ r.EventId = e.id) →
        e.registeredCount ≥ e.capacity →
        (register s req env).reply = alreadyRegisteredReply ∧
          (register s req env).reply ≠ atCapacityReply) ∧
      ((register s req env).reply = atCapacityReply ↔
        duplicate s req.body env.now = false ∧ full s req.body env.now = true) ∧
      ((register s req env).reply = alreadyRegisteredReply ↔
        duplicate s req.body env.now = true) := by
  have hreg := register_calm s req env hv hcalm
  have key : ((register s req env).reply = atCapacityReply ↔
        duplicate s req.body env.now = false ∧ full s req.body env.now = true) ∧
      ((register s req env).reply = alreadyRegisteredReply ↔
        duplicate s req.body env.now = true) := by
    rw [hreg]
    unfold duplicate full
    cases findRegistration (resolve s req.body env.now).1 (resolve s req.body env.now).2.1.id
        (resolve s req.body env.now).2.2.id with
    | some r => simp [rolledBack, alreadyRegisteredReply, atCapacityReply]
    | none =>
      by_cases hfull : (resolve s req.body env.now).2.2.registeredCount
          ≥ (resolve s req.body env.now).2.2.capacity
      · simp [hfull, rolledBack, alreadyRegisteredReply, atCapacityReply]
      · simp [hfull, committed, successReply, alreadyRegisteredReply, atCapacityReply]
  refine ⟨?_, key.1, key.2⟩
  intro u e hu he hr _
  have hd := duplicate_of_holds s req.body env.now u e hu he hr
  refine ⟨key.2.2 hd, ?_⟩
  rw [key.2.2 hd]
  decide

theorem duplicate_check_before_capacity_check_witness :
    (register store1 ⟨bodyA, []⟩ calm).reply = alreadyRegisteredReply ∧
      (register store1 ⟨bodyA, []⟩ calm).reply ≠ atCapacityReply :=
  (duplicate_check_before_capacity_check store1 ⟨bodyA, []⟩ calm rfl rfl).1 ada
    { launch with registeredCount := 1 } (by decide) (by decide) (by decide) (by decide)

/-- C9. Post-commit isolation: the committed store and the reply do not depend
on whether the promise of `sendRegistrationEmail` rejects; when the request
commits, the reply is the 201 "success" reply carrying the id of a registration
row of the committed store in both cases, and the rejection only shows as a
console line. -/
theorem notification_failure_isolated (s : Store) (req : Request) (env : Env) :
    (register s req { env with emailRejects := true }).store
        = (register s req { env with emailRejects := false }).store ∧
      (register s req { env with emailRejects := true }).reply
        = (register s req { env with emailRejects := false }).reply ∧
      ((register s req { env with emailRejects := false }).reply.isSuccess = true →
        (∃ r ∈ (register s req { env with emailRejects := true }).store.registrations,
          (register s req { env with emailRejects := true }).reply =
            .json 201 { status := "success",
                        message := some ("Successfully registered for " ++ req.body.eventTitle),
                        errors := [], registrationId := some r.id }) ∧
        (register s req { env with emailRejects := true }).console = ["Email failed:"] ∧
        (register s req { env with emailRejects := false }).console = []) := by
  obtain ⟨h1, h2, -⟩ := register_emailRejects s req { env with emailRejects := false } true
  refine ⟨h1, h2, ?_⟩
  intro hs
  have hs' : (register s req { env with emailRejects := true }).reply.isSuccess = true := by
    have := h2; simp only at this; rw [this]; exact hs
  obtain ⟨-, -, hc⟩ := register_of_success s req _ hs
  obtain ⟨-, -, hc'⟩ := register_of_success s req _ hs'
  rw [hc, hc']
  refine ⟨⟨(createRegistration (resolve s req.body env.now).1
      (resolve s req.body env.now).2.1.id (resolve s req.body env.now).2.2.id).2, ?_, ?_⟩, rfl, rfl⟩
  · simp [committed, increment, createRegistration]
  · simp [committed, successReply, resolve_event_title]

theorem notification_failure_isolated_witness :
    (register store0 ⟨bodyA, []⟩ { calm with emailRejects := true }).store = store1 ∧
      (register store0 ⟨bodyA, []⟩ { calm with emailRejects := true }).console
        = ["Email failed:"] ∧
      (register store0 ⟨bodyA, []⟩ { calm with emailRejects := true }).store
        = (register store0 ⟨bodyA, []⟩ { calm with emailRejects := false }).store :=
  ⟨by decide, by decide, (notification_failure_isolated store0 ⟨bodyA, []⟩ calm).1⟩

/-- C2. Capacity invariant: in a store whose events have distinct ids and all
satisfy `0 <= registeredCount <= capacity`, every event of the committed store
after any register request (committed, rejected or failed) still satisfies it,
and so does every event after any finite sequence of requests run one after
another. -/
theorem capacity_invariant (s : Store) (hid : EventIdsUnique s) (h : CapacityOk s) :
    (∀ req env, CapacityOk (register s req env).store) ∧
      (∀ calls, CapacityOk (runAll s calls)) :=
  ⟨fun req env => register_capacityOk s req env hid h,
   fun calls => runAll_capacityOk calls s hid h⟩

theorem capacity_invariant_witness :
    CapacityOk store0 ∧ CapacityOk (register store0 ⟨bodyA, []⟩ calm).store ∧
      CapacityOk (runAll store0 [(⟨bodyA, []⟩, calm), (⟨bodyB, []⟩, calm)]) :=
  ⟨by decide, (capacity_invariant store0 (by decide) (by decide)).1 ⟨bodyA, []⟩ calm,
   (capacity_invariant store0 (by decide) (by decide)).2 _⟩

/-- C10. Ledger consistency: in a store where every registration row references
an event row and every event's `registeredCount` equals the number of
registration rows of the event, both still hold in the committed store after
any register request, also one that creates the placeholder event. -/
theorem ledger_consistency (s : Store) (hr : RefsResolve s) (hl : Ledger s)
    (req : Request) (env : Env) :
    Ledger (register s req env).store ∧ RefsResolve (register s req env).store := by
  rcases register_cases s req env with ⟨-, hs, -⟩ | ⟨-, -, hc⟩
  · rw [hs]; exact ⟨hl, hr⟩
  · rw [hc]
    exact ⟨committed_ledger _ env (resolve_ledger s req.body env.now hr hl),
      committed_refsResolve _ env (resolve_refsResolve s req.body env.now hr)
        (resolve_event_mem s req.body env.now)⟩

theorem ledger_consistency_witness :
    (register store1 ⟨{ bodyB with eventTitle := "Meetup" }, []⟩ calm).store.events.length = 2 ∧
      Ledger (register store1 ⟨{ bodyB with eventTitle := "Meetup" }, []⟩ calm).store :=
  ⟨by decide, (ledger_consistency store1 (by decide) (by decide) _ calm).1⟩

/-- C7. Effect of a successful reservation: when the request commits, the
registration table is the old one followed by exactly one new row that links
the resolved user (the one the request's email now finds) to the resolved event,
the pair had no row before, the event found by the title carries its previous
`registeredCount` plus 1 with its other attributes (capacity included) as
before, the previous value being that of the event found in the old store or the
placeholder's default, and the events with another id are the same rows before
and after. -/
theorem successful_reservation_effect (s : Store) (req : Request) (env : Env)
    (h : (register s req env).reply.isSuccess = true) :
    (register s req env).store.registrations =
        s.registrations ++
          [{ id := nextId (s.registrations.map (·.id)),
             UserId := (resolve s req.body env.now).2.1.id,
             EventId := (resolve s req.body env.now).2.2.id }] ∧
      registrationsOf s (resolve s req.body env.now).2.1.id
        (resolve s req.body env.now).2.2.id = 0 ∧
      findUser (register s req env).store req.body.email
        = some (resolve s req.body env.now).2.1 ∧
      findEvent (register s req env).store req.body.eventTitle =
        some { (resolve s req.body env.now).2.2 with
          registeredCount := (resolve s req.body env.now).2.2.registeredCount + 1 } ∧
      (findEvent s req.body.eventTitle = some (resolve s req.body env.now).2.2 ∨
        (findEvent s req.body.eventTitle = none ∧
          (resolve s req.body env.now).2.2.registeredCount = 0 ∧
          (resolve s req.body env.now).2.2.capacity = 100)) ∧
      (∀ x ∈ s.events, x.id ≠ (resolve s req.body env.now).2.2.id →
        x ∈ (register s req env).store.events) ∧
      (∀ x ∈ (register s req env).store.events,
        x.id ≠ (resolve s req.body env.now).2.2.id → x ∈ s.events) := by
  obtain ⟨hnone, -, hc⟩ := register_of_success s req env h
  rw [hc]
  have hregs := resolve_registrations s req.body env.now
  refine ⟨?_, ?_, ?_, ?_, ?_, ?_, ?_⟩
  · rw [committed_registrations, hregs]
  · have := registrationsOf_eq_zero _ _ _ hnone
    unfold registrationsOf at this ⊢
    rw [hregs] at this
    exact this
  · rw [committed_findUser]; exact resolve_findUser s req.body env.now
  · exact committed_findEvent _ env _ (resolve_findEvent s req.body env.now)
  · rcases resolve_events_cases s req.body env.now with ⟨hf, -⟩ | ⟨hf, -, hp⟩
    · left; exact hf
    · right; refine ⟨hf, ?_, ?_⟩ <;> rw [hp]
  · intro x hx hne
    rw [committed_events, List.mem_map]
    refine ⟨x, ?_, by simp [bump, hne]⟩
    rcases resolve_events_cases s req.body env.now with ⟨-, he⟩ | ⟨-, he, -⟩ <;> rw [he]
    · exact hx
    · exact List.mem_append_left _ hx
  · intro x hx hne
    rw [committed_events, List.mem_map] at hx
    obtain ⟨y, hy, rfl⟩ := hx
    rw [bump_id] at hne
    have hb : bump (resolve s req.body env.now).2.2.id y = y := by simp [bump, hne]
    rw [hb]
    rcases resolve_events_cases s req.body env.now with ⟨-, he⟩ | ⟨-, he, -⟩ <;>
      rw [he] at hy
    · exact hy
    · rcases List.mem_append.1 hy with h1 | h1
      · exact h1
      · rw [List.mem_singleton] at h1
        exact absurd (by rw [h1]) hne

theorem successful_reservation_effect_witness :
    (register store0 ⟨bodyA, []⟩ calm).store.registrations
        = [{ id := 1, UserId := 1, EventId := 1 }] ∧
      findEvent (register store0 ⟨bodyA, []⟩ calm).store "Launch"
        = some { launch with registeredCount := 1 } :=
  ⟨(successful_reservation_effect store0 ⟨bodyA, []⟩ calm (by decide)).1,
   (successful_reservation_effect store0 ⟨bodyA, []⟩ calm (by decide)).2.2.2.1⟩

/-- C8. First write wins: when the store already has a user with the request's
email, then whatever names and age the request supplies and however it ends,
the user table of the committed store is the one before (the same record, no
second user with the email), the email still finds that record, and a
registration created by the request references that user's id. -/
theorem first_write_wins (s : Store) (p : User) (req : Request) (env : Env)
    (hp : findUser s req.body.email = some p) :
    (register s req env).store.users = s.users ∧
      findUser (register s req env).store req.body.email = some p ∧
      ((register s req env).store.registrations = s.registrations ∨
        ∃ id eventId, (register s req env).store.registrations
          = s.registrations ++ [{ id := id, UserId := p.id, EventId := eventId }]) ∧
      ((register s req env).reply.isSuccess = true →
        ∃ id eventId, (register s req env).store.registrations
          = s.registrations ++ [{ id := id, UserId := p.id, EventId := eventId }]) := by
  have hu : (resolve s req.body env.now).2.1 = p ∧ (resolve s req.body env.now).1.users = s.users := by
    rcases resolve_users_cases s req.body env.now with ⟨h, hus⟩ | ⟨h, -⟩
    · rw [hp] at h; exact ⟨(Option.some.inj h).symm, hus⟩
    · rw [hp] at h; cases h
  rcases register_cases s req env with ⟨hn, hs, -⟩ | ⟨-, -, hc⟩
  · rw [hs, hn]
    exact ⟨rfl, hp, Or.inl rfl, fun h => by cases h⟩
  · have hregs : (register s req env).store.registrations
        = s.registrations ++
          [{ id := nextId (s.registrations.map (·.id)), UserId := p.id,
             EventId := (resolve s req.body env.now).2.2.id }] := by
      rw [hc, committed_registrations, resolve_registrations, hu.1]
    refine ⟨?_, ?_, Or.inr ⟨_, _, hregs⟩, fun _ => ⟨_, _, hregs⟩⟩
    · rw [hc, committed_users, hu.2]
    · rw [hc, committed_findUser]
      unfold findUser at hp ⊢
      rw [hu.2]; exact hp

theorem first_write_wins_witness :
    (register { store1 with events := [{ launch with capacity := 2, registeredCount := 1 }] }
        ⟨{ bodyB with email := "a@x.io" }, []⟩ calm).reply.isSuccess = false ∧
      (register store1 ⟨{ bodyB with email := "a@x.io", eventTitle := "Meetup" }, []⟩ calm).reply
        = successReply "Meetup" 2 ∧
      (register store1 ⟨{ bodyB with email := "a@x.io", eventTitle := "Meetup" }, []⟩ calm).store.users
        = [ada] :=
  ⟨by decide, by decide,
   (first_write_wins store1 ada ⟨{ bodyB with email := "a@x.io", eventTitle := "Meetup" }, []⟩
      calm (by decide)).1⟩

/-- C4. Once a register request by an email for a title has committed, then
after any number of further requests by anyone, a request with the same email
and title never commits and leaves the store (so also every `registeredCount`)
as it is; with valid input and no storage failure its reply is the
already-registered rejection; and the store holds exactly one registration row
for the user and event of the first request, which the email and title still
find. -/
theorem repeated_registration_rejected (s : Store) (req : Request) (env : Env)
    (hs : (register s req env).reply.isSuccess = true) (mid : List (Request × Env))
    (again : Request) (hm : again.body.email = req.body.email)
    (ht : again.body.eventTitle = req.body.eventTitle) :
    (∀ env2, (register (runAll (register s req env).store mid) again env2).reply.isSuccess
          = false ∧
        (register (runAll (register s req env).store mid) again env2).store
          = runAll (register s req env).store mid) ∧
      (∀ env2, again.validationErrors = [] → env2.failing = none →
        (register (runAll (register s req env).store mid) again env2).reply
          = alreadyRegisteredReply) ∧
      (∃ u e, findUser (runAll (register s req env).store mid) req.body.email = some u ∧
        findEvent (runAll (register s req env).store mid) req.body.eventTitle = some e ∧
        u.id = (resolve s req.body env.now).2.1.id ∧
        e.id = (resolve s req.body env.now).2.2.id ∧
        registrationsOf (runAll (register s req env).store mid) u.id e.id = 1) := by
  have h := held_runAll _ _ _ _ mid _ (held_of_success s req env hs)
  have h' := h
  rw [← hm, ← ht] at h'
  refine ⟨fun env2 => held_not_success _ again env2 _ _ h',
    fun env2 hv hcalm => held_rejected _ again env2 _ _ h' hv hcalm, ?_⟩
  obtain ⟨⟨u, hu, huid⟩, ⟨e, he, heid⟩, hcount⟩ := h
  exact ⟨u, e, hu, he, huid, heid, by rw [huid, heid]; exact hcount⟩

theorem repeated_registration_rejected_witness :
    (register (runAll (register store0 ⟨bodyA, []⟩ calm).store [(⟨bodyB, []⟩, calm)])
        ⟨bodyA, []⟩ calm).reply = alreadyRegisteredReply ∧
      runAll (register store0 ⟨bodyA, []⟩ calm).store [(⟨bodyB, []⟩, calm)] = store1 :=
  ⟨(repeated_registration_rejected store0 ⟨bodyA, []⟩ calm (by decide) [(⟨bodyB, []⟩, calm)]
      ⟨bodyA, []⟩ rfl rfl).2.1 calm rfl rfl, by decide⟩

/-- C3. Sequential admission: for an event found by its title with capacity
`C`, `registeredCount` 0 and no registration rows, in a store whose users have
distinct ids, after any list of valid requests for that title run one after
another without storage failure (any emails, repeats allowed) the number of
registration rows of the event, and its `registeredCount`, is
`min C (number of distinct emails)`. With `C = 1` and two requests by different
emails, the first gets the 201 reply and the count becomes 1, the second gets
the at-capacity rejection and leaves the store, so the count, as it is. -/
theorem sequential_admission (s : Store) (t : String) (e : Event) (C : Nat)
    (hfind : findEvent s t = some e) (hcap : e.capacity = (C : Int))
    (hrc : e.registeredCount = 0) (hnone : registrationsFor s e.id = 0)
    (huid : UserIdsUnique s) :
    (∀ calls : List (Request × Env),
      (∀ c ∈ calls, c.1.body.eventTitle = t ∧ c.1.validationErrors = [] ∧
        c.2.failing = none) →
      registrationsFor (runAll s calls) e.id
          = min C (calls.map (fun c => c.1.body.email)).dedup.length ∧
        ∃ e1, findEvent (runAll s calls) t = some e1 ∧ e1.id = e.id ∧
          e1.capacity = (C : Int) ∧
          e1.registeredCount
            = ((min C (calls.map (fun c => c.1.body.email)).dedup.length : Nat) : Int)) ∧
      (C = 1 → ∀ (reqA reqB : Request) (envA envB : Env),
        reqA.body.eventTitle = t → reqA.validationErrors = [] → envA.failing = none →
        reqB.body.eventTitle = t → reqB.validationErrors = [] → envB.failing = none →
        reqA.body.email ≠ reqB.body.email →
        (register s reqA envA).reply = successReply t (nextId (s.registrations.map (·.id))) ∧
          (∃ e1, findEvent (register s reqA envA).store t = some e1 ∧
            e1.registeredCount = 1) ∧
          (register (register s reqA envA).store reqB envB).reply = atCapacityReply ∧
          (register (register s reqA envA).store reqB envB).store
            = (register s reqA envA).store) := by
  constructor
  · intro calls hall
    have h := admission_runAll t e.id C calls s [] (admission_init s t e C hfind hcap hrc hnone huid)
      hall
    obtain ⟨⟨e1, he1, he1id, he1cap, he1rc⟩, -, -, -, hcount⟩ := h
    rw [List.nil_append, List.card_toFinset] at hcount
    exact ⟨hcount, e1, he1, he1id, he1cap, by rw [he1rc, hcount]⟩
  · intro hC reqA reqB envA envB htA hvA hcA htB hvB hcB hne
    subst hC
    exact capacity_one_scenario s t e hfind (by rw [hcap]; rfl) hrc hnone huid reqA reqB envA envB
      htA hvA hcA htB hvB hcB hne

theorem sequential_admission_witness :
    registrationsFor
        (runAll store0 [(⟨bodyA, []⟩, calm), (⟨bodyB, []⟩, calm), (⟨bodyA, []⟩, calm)]) 1 = 1 ∧
      (register (register store0 ⟨bodyA, []⟩ calm).store ⟨bodyB, []⟩ calm).reply
        = atCapacityReply :=
  ⟨((sequential_admission store0 "Launch" launch 1 (by decide) (by decide) (by decide)
      (by decide) (by decide)).1
      [(⟨bodyA, []⟩, calm), (⟨bodyB, []⟩, calm), (⟨bodyA, []⟩, calm)] (by decide)).1,
   ((sequential_admission store0 "Launch" launch 1 (by decide) (by decide) (by decide)
      (by decide) (by decide)).2 rfl ⟨bodyA, []⟩ ⟨bodyB, []⟩ calm calm rfl rfl rfl rfl rfl rfl
      (by decide)).2.2.1⟩

end PixelPhantoms
